import Mathlib

/-!
Verification development for the orderbook aggregation server
(`src/server.rs` of the repository).  The visible source is the gRPC entry
point `server.rs`; the order-book engine (`Orderbook`), the exchange adapters
(`get_updates_binance` / `get_updates_bitstamp`), symbol validation and the
stream multiplexer live in the library crate `ckt_lib`, which is not in the
visible sources.  Those parts are modelled from the specification (marked
`Modelled from the spec:` below); the control flow of the two handlers and of
the spawned streaming task is embedded directly from `server.rs`.
-/

/-- The two supported exchanges, as in the generated `ExchangeType` enum used
by `server.rs` (`ExchangeType::Binance` / `ExchangeType::Bitstamp`). -/
inductive ExchangeType
  | binance
  | bitstamp
deriving DecidableEq, Repr

/-- Side of the book a level update applies to. -/
inductive Side
  | bid
  | ask
deriving DecidableEq, Repr

/-- Modelled from the spec: prices and quantities are fixed-precision
decimals; we represent them as scaled natural numbers, which preserves exact
comparison and hashing. -/
abbrev Price := Nat

/-- Modelled from the spec: a quantity, scaled fixed-precision decimal;
`0` means "remove this price level for this exchange". -/
abbrev Qty := Nat

/-- Modelled from the spec: the canonical `LevelUpdate` record
`{ exchange, side, price, quantity }` produced by every adapter. -/
structure LevelUpdate where
  exchange : ExchangeType
  side : Side
  price : Price
  qty : Qty
deriving DecidableEq, Repr

/-- Modelled from the spec: one rung of the canonical ladder holds, per
exchange, the quantity that exchange offers at this price (at most one entry
per exchange; `none` = absent).  The exchange set is closed (two exchanges),
so the mapping is a pair of optional quantities. -/
structure PriceLevel where
  binanceQty : Option Qty
  bitstampQty : Option Qty
deriving DecidableEq, Repr

/-- A price level with no exchange contribution. -/
def PriceLevel.empty : PriceLevel := ⟨none, none⟩

/-- Modelled from the spec: set (or, when `q = 0`, remove) one exchange's
contribution at this price. -/
def PriceLevel.set (pl : PriceLevel) (e : ExchangeType) (q : Qty) : PriceLevel :=
  match e with
  | .binance => { pl with binanceQty := if q = 0 then none else some q }
  | .bitstamp => { pl with bitstampQty := if q = 0 then none else some q }

/-- True when no exchange contributes at this price; such a level must not be
retained in the ladder. -/
def PriceLevel.isEmpty (pl : PriceLevel) : Bool :=
  pl.binanceQty.isNone && pl.bitstampQty.isNone

/-- One side of the book: price levels kept sorted by the side's order
(bids descending, asks ascending). -/
abbrev Ladder := List (Price × PriceLevel)

/-- Modelled from the spec: apply one `(exchange, price, qty)` change to a
ladder sorted by the strict order `before` — an idempotent upsert/remove that
drops a price level when its last exchange contribution is removed. -/
def ladderApply (before : Price → Price → Bool) (e : ExchangeType) (p : Price)
    (q : Qty) : Ladder → Ladder
  | [] =>
    let pl := PriceLevel.empty.set e q
    if pl.isEmpty then [] else [(p, pl)]
  | (p0, pl0) :: rest =>
    if p = p0 then
      let pl := pl0.set e q
      if pl.isEmpty then rest else (p0, pl) :: rest
    else if before p p0 then
      let pl := PriceLevel.empty.set e q
      if pl.isEmpty then (p0, pl0) :: rest else (p, pl) :: (p0, pl0) :: rest
    else
      (p0, pl0) :: ladderApply before e p q rest

/-- Bid ladder order: higher prices first. -/
def bidBefore (a b : Price) : Bool := decide (b < a)

/-- Ask ladder order: lower prices first. -/
def askBefore (a b : Price) : Bool := decide (a < b)

/-- Modelled from the spec: the per-symbol `Orderbook` of `ckt_lib`: the
session configuration (symbol, depth `levels`, price-range bounds, decimal
precision) plus the two ladders. -/
structure Orderbook where
  symbol : String
  levels : Nat
  min_price : Price
  max_price : Price
  decimals : Nat
  bids : Ladder
  asks : Ladder
deriving DecidableEq, Repr

/-- Modelled from the spec: `Orderbook::default()` — empty configuration and
empty ladders, as created once in `OrderbookSummary::default` (server.rs
lines 25-31). -/
def Orderbook.default : Orderbook := ⟨"", 0, 0, 0, 0, [], []⟩

/-- Modelled from the spec: `apply` routes a `LevelUpdate` to the matching
side's ladder.  (The spec leaves the application point of the optional
price-range filter unspecified; it is not involved in any claim.) -/
def Orderbook.apply (ob : Orderbook) (u : LevelUpdate) : Orderbook :=
  match u.side with
  | .bid => { ob with bids := ladderApply bidBefore u.exchange u.price u.qty ob.bids }
  | .ask => { ob with asks := ladderApply askBefore u.exchange u.price u.qty ob.asks }

/-- Modelled from the spec: `Orderbook::update` applies a batch of normalized
level updates in order (used by `server.rs` as `ob.update(updates)`). -/
def Orderbook.update (ob : Orderbook) (us : List LevelUpdate) : Orderbook :=
  us.foldl Orderbook.apply ob

/-- Modelled from the spec: `Orderbook::reset(symbol, levels, min_price,
max_price, decimals)` replaces the configuration and clears both ladders
(called by both handlers in `server.rs` lines 67 and 103). -/
def Orderbook.reset (_ob : Orderbook) (symbol : String) (levels : Nat)
    (mn mx d : Nat) : Orderbook :=
  ⟨symbol, levels, mn, mx, d, [], []⟩

/-- One entry of a summary: `{exchange, price, quantity}`. -/
structure SummaryLevel where
  exchange : ExchangeType
  price : Price
  qty : Qty
deriving DecidableEq, Repr

/-- Modelled from the spec: the per-exchange entries one price level
contributes to a summary, in exchange-priority (declaration) order. -/
def PriceLevel.entries (p : Price) (pl : PriceLevel) : List SummaryLevel :=
  (match pl.binanceQty with
   | some q => [⟨.binance, p, q⟩]
   | none => []) ++
  (match pl.bitstampQty with
   | some q => [⟨.bitstamp, p, q⟩]
   | none => [])

/-- Flatten a ladder into exchange-tagged summary entries, in ladder order. -/
def ladderEntries : Ladder → List SummaryLevel
  | [] => []
  | (p, pl) :: rest => PriceLevel.entries p pl ++ ladderEntries rest

/-- Modelled from the spec: the read-only `Summary` projection — top `levels`
bids and asks plus the spread (`best_ask - best_bid`, absent when either side
is empty). -/
structure Summary where
  spread : Option Int
  bids : List SummaryLevel
  asks : List SummaryLevel
deriving DecidableEq, Repr

/-- Modelled from the spec: `Orderbook::get_summary` — deterministic pure
projection of the current state, truncated to `levels` entries per side. -/
def Orderbook.get_summary (ob : Orderbook) : Summary :=
  { spread :=
      match ob.bids, ob.asks with
      | (pb, _) :: _, (pa, _) :: _ => some ((pa : Int) - (pb : Int))
      | _, _ => none
    bids := (ladderEntries ob.bids).take ob.levels
    asks := (ladderEntries ob.asks).take ob.levels }

/-- Orderbook states reachable through the operations the server performs:
a `reset` (fresh configuration, empty ladders) followed by any sequence of
applied level updates (snapshots and deltas both arrive as `LevelUpdate`s). -/
inductive Reachable : Orderbook → Prop
  | reset (ob : Orderbook) (sym : String) (l mn mx d : Nat) :
      Reachable (ob.reset sym l mn mx d)
  | apply {ob : Orderbook} (u : LevelUpdate) : Reachable ob → Reachable (ob.apply u)

/-- Both ladders sorted by their side's strict order. -/
def Orderbook.WF (ob : Orderbook) : Prop :=
  ob.bids.Pairwise (fun x y => bidBefore x.1 y.1 = true) ∧
  ob.asks.Pairwise (fun x y => askBefore x.1 y.1 = true)

/-- gRPC status codes the server produces (`Status::invalid_argument` from
symbol validation, `Status::internal` everywhere else). -/
inductive GrpcStatus
  | invalidArgument
  | internal
deriving DecidableEq, Repr

/-- An item of the client's output channel, `Result<Summary, Status>`
(the item type of `mpsc::unbounded_channel` in `watch_summary`). -/
inductive ChannelItem
  | ok (s : Summary)
  | err (st : GrpcStatus)
deriving DecidableEq, Repr

/-- One tagged message `(key, msg)` from the multiplexed stream, recording the
outcomes of the library calls `server.rs` makes on it (lines 118-137):
the transport result `msg`, the `serde_json::from_slice` parse, and — for a
parsed message — the matching adapter call (`get_updates_binance`, or
`msg_value["data"].as_object()` followed by `get_updates_bitstamp`). -/
inductive TaggedMsg
  | err (key : ExchangeType)
  | noParse (key : ExchangeType)
  | binance (r : Except Unit (List LevelUpdate))
  | bitstampEmpty
  | bitstamp (r : Except Unit (List LevelUpdate))

/-- Outcome of one iteration of the spawned task's `loop { select! { ... } }`
(server.rs lines 116-149). -/
inductive IterOut
  | next (ob : Orderbook) (s : Summary)
  | taskErr (ob : Orderbook)
  | taskOk
deriving DecidableEq, Repr

/-- The trailing send of the message branch (server.rs lines 139-142):
`tx.send(Ok(ob.get_summary()))`; when the channel is closed the send fails and
the task returns `Err(Status::internal(..))`. -/
def sendSummary (txOpen : Bool) (ob : Orderbook) : IterOut :=
  if txOpen then .next ob ob.get_summary else .taskErr ob

/-- The message branch of the `select!` (server.rs lines 118-143): a transport
error hits `msg.map_err(..)?` and terminates the task; a JSON parse failure
falls through to the send; a Binance adapter failure is skipped by
`if let Ok(updates)`; a Bitstamp message with missing/empty `data` is skipped;
a Bitstamp adapter failure hits `.map_err(..)?` and terminates the task;
successful updates are applied before the send. -/
def watchStep (txOpen : Bool) (ob : Orderbook) : TaggedMsg → IterOut
  | .err _ => .taskErr ob
  | .noParse _ => sendSummary txOpen ob
  | .binance (.error _) => sendSummary txOpen ob
  | .binance (.ok us) => sendSummary txOpen (ob.update us)
  | .bitstampEmpty => sendSummary txOpen ob
  | .bitstamp (.error _) => .taskErr ob
  | .bitstamp (.ok us) => sendSummary txOpen (ob.update us)

/-- The two branches of the `select!`. -/
inductive SelectBranch
  | message
  | closed
deriving DecidableEq, Repr

/-- One `select!` iteration: `b` is the scheduler's choice among the branches.
`none` means the chosen branch is not enabled — the pattern
`Some((key, msg)) = map.next()` disables the message branch when the stream
has ended, and `() = tx.closed()` only completes once the client has dropped
the receiver.  When no branch is enabled the task stays suspended. -/
def selectIter (b : SelectBranch) (txClosed : Bool) (next : Option TaggedMsg)
    (ob : Orderbook) : Option IterOut :=
  match b with
  | .message =>
    match next with
    | some m => some (watchStep (!txClosed) ob m)
    | none => none
  | .closed => if txClosed then some .taskOk else none

/-- How a session that consumed a finite stream prefix ended up. -/
inductive SessionOutcome
  | blocked
  | errored
deriving DecidableEq, Repr

/-- What a session did on a finite stream prefix: the items pushed into the
unbounded channel in order, the final book, and whether the task is still
suspended (`blocked`) or returned `Err(_)` (`errored`). -/
structure SessionTrace where
  sent : List ChannelItem
  ob : Orderbook
  outcome : SessionOutcome
deriving DecidableEq, Repr

/-- Run the spawned task of `watch_summary` over a finite prefix of the
multiplexed stream, with the client connected (channel open) throughout.
When the prefix is exhausted the task blocks: the message branch is disabled
and `tx.closed()` is pending. -/
def runSession (ob : Orderbook) : List TaggedMsg → SessionTrace
  | [] => ⟨[], ob, .blocked⟩
  | m :: rest =>
    match watchStep true ob m with
    | .next ob2 s =>
      let t := runSession ob2 rest
      ⟨.ok s :: t.sent, t.ob, t.outcome⟩
    | .taskErr ob2 => ⟨[], ob2, .errored⟩
    | .taskOk => ⟨[], ob, .errored⟩

/-- The level updates the loop body applies for a message (empty when the
message is skipped or terminates the task before updating). -/
def msgUpdates : TaggedMsg → List LevelUpdate
  | .binance (.ok us) => us
  | .bitstamp (.ok us) => us
  | _ => []

/-- Whether the loop body hits an early `?` on this message (transport error,
or Bitstamp update extraction failure), terminating the task with no send. -/
def msgFatal : TaggedMsg → Bool
  | .err _ => true
  | .bitstamp (.error _) => true
  | _ => false

/-- The body of a `SummaryRequest` (symbol, depth, price bounds, precision). -/
structure SummaryRequest where
  symbol : String
  levels : Nat
  min_price : Nat
  max_price : Nat
  decimals : Nat
deriving DecidableEq, Repr

/-- A `tonic::Request`: an optional remote peer address plus the body. -/
structure Request (α : Type) where
  remote_addr : Option Nat
  inner : α

/-- Externally visible work a handler performs beyond mutating its book:
fetching snapshots (`ob.add_snapshots()`), opening the multiplexed stream
(`get_stream(symbol)`). -/
inductive Effect
  | fetchSnapshots (symbol : String)
  | openStream (symbol : String)
deriving DecidableEq, Repr

/-- Modelled from the spec: `Orderbook::add_snapshots` fetches a full snapshot
from every exchange and applies it; the fetched canonical updates (or the
fetch failure) are an oracle parameter `snap`. -/
def Orderbook.add_snapshots (ob : Orderbook)
    (snap : Except Unit (List LevelUpdate)) : Except Unit Orderbook :=
  snap.map fun us => ob.update us

/-- The `get_summary` handler (server.rs lines 53-75): validate the symbol
(`validate_symbol`, modelled by the oracle `v`), then lock the shared book,
reset it to the request's configuration, add snapshots, and return the
summary.  Returns the result, the book cell's new contents, and the external
effects performed. -/
def get_summary (v : String → Bool) (snap : Except Unit (List LevelUpdate))
    (ob : Orderbook) (req : SummaryRequest) :
    Except GrpcStatus Summary × Orderbook × List Effect :=
  if v req.symbol then
    let ob1 := ob.reset req.symbol req.levels req.min_price req.max_price req.decimals
    match ob1.add_snapshots snap with
    | .ok ob2 => (.ok ob2.get_summary, ob2, [.fetchSnapshots req.symbol])
    | .error _ => (.error .internal, ob1, [.fetchSnapshots req.symbol])
  else (.error .invalidArgument, ob, [])

/-- Result of the `watch_summary` handler's setup phase: a panic on
`request.remote_addr().unwrap()`, an error status, or success (the response
stream is returned and the session task is spawned on the given book). -/
inductive WatchResult
  | panicked
  | err (st : GrpcStatus)
  | ok (ob : Orderbook)
deriving DecidableEq, Repr

/-- The `watch_summary` handler's setup (server.rs lines 78-113):
`request.remote_addr().unwrap()` (panics when the request has no peer
address), then create the channel, validate the symbol, lock the shared book,
reset it, add snapshots, and open the multiplexed stream (`get_stream`,
modelled by the oracle `so`).  Returns the result, the book cell's new
contents, and the external effects performed, in order. -/
def watch_summary (v : String → Bool) (snap : Except Unit (List LevelUpdate))
    (so : Except Unit Unit) (ob : Orderbook) (req : Request SummaryRequest) :
    WatchResult × Orderbook × List Effect :=
  match req.remote_addr with
  | none => (.panicked, ob, [])
  | some _ =>
    let r := req.inner
    if v r.symbol then
      let ob1 := ob.reset r.symbol r.levels r.min_price r.max_price r.decimals
      match ob1.add_snapshots snap with
      | .error _ => (.err .internal, ob1, [.fetchSnapshots r.symbol])
      | .ok ob2 =>
        match so with
        | .error _ => (.err .internal, ob2, [.fetchSnapshots r.symbol, .openStream r.symbol])
        | .ok _ => (.ok ob2, ob2, [.fetchSnapshots r.symbol, .openStream r.symbol])
    else (.err .invalidArgument, ob, [])

/-- Result of the `get_symbols` handler. -/
inductive SymbolsResult
  | panicked
  | err (st : GrpcStatus)
  | ok (symbols : List String)
deriving DecidableEq, Repr

/-- The `get_symbols` handler (server.rs lines 38-49):
`request.remote_addr().unwrap()` first (panics when the request carries no
peer address), then `get_symbols_all` (modelled by the oracle `sres`). -/
def get_symbols (sres : Except Unit (List String)) (req : Request Unit) :
    SymbolsResult :=
  match req.remote_addr with
  | none => .panicked
  | some _ =>
    match sres with
    | .ok s => .ok s
    | .error _ => .err .internal

/-- The heap of `Arc<Mutex<Orderbook>>` cells, indexed by pointer identity. -/
abbrev Store := Nat → Orderbook

/-- The server struct (server.rs lines 20-23): it holds ONE
`Arc<Mutex<Orderbook>>`; `orderbookRef` is that Arc's pointer identity. -/
structure OrderbookSummary where
  orderbookRef : Nat

/-- `OrderbookSummary::default()` (server.rs lines 25-31): allocates the
single shared orderbook cell. -/
def OrderbookSummary.default : OrderbookSummary := ⟨0⟩

/-- The cell a handler call locks: `self.orderbook` in `get_summary`
(line 66) and `self.orderbook.clone()` in `watch_summary` (lines 101, 113)
are clones of the same Arc, so every session locks this one cell. -/
def OrderbookSummary.lockedRef (s : OrderbookSummary) : Nat := s.orderbookRef

/-- A `get_summary` call including the Arc/Mutex: lock the server's shared
cell, run the handler body on its contents, write the mutated book back. -/
def runGetSummaryOn (s : OrderbookSummary) (v : String → Bool)
    (snap : Except Unit (List LevelUpdate)) (store : Store)
    (req : SummaryRequest) : Except GrpcStatus Summary × Store :=
  let r := get_summary v snap (store s.lockedRef) req
  (r.1, fun i => if i = s.lockedRef then r.2.1 else store i)

/-- A `watch_summary` call including the Arc/Mutex: lock the server's shared
cell, run the setup on its contents, write the mutated book back (the spawned
task then keeps the same cell locked for the session's lifetime). -/
def runWatchSummaryOn (s : OrderbookSummary) (v : String → Bool)
    (snap : Except Unit (List LevelUpdate)) (so : Except Unit Unit)
    (store : Store) (req : Request SummaryRequest) : WatchResult × Store :=
  let r := watch_summary v snap so (store s.lockedRef) req
  (r.1, fun i => if i = s.lockedRef then r.2.1 else store i)

/-- Two-session scenario, session A: `get_summary` for symbol `ethbtc` on a
fresh server; `storeA` is the heap afterwards. -/
def storeA : Store :=
  (runGetSummaryOn OrderbookSummary.default (fun _ => true) (.ok [])
    (fun _ => Orderbook.default) ⟨"ethbtc", 10, 0, 0, 0⟩).2

/-- Two-session scenario, session B: `watch_summary` for symbol `btcusdt` on
the same server while (or after) session A; `storeB` is the heap afterwards. -/
def storeB : Store :=
  (runWatchSummaryOn OrderbookSummary.default (fun _ => true) (.ok []) (.ok ())
    storeA ⟨some 7, ⟨"btcusdt", 10, 0, 0, 0⟩⟩).2

/-- Session scenario book for claim C2: a freshly reset book for `ethbtc`. -/
def obC2 : Orderbook := Orderbook.default.reset "ethbtc" 2 0 0 0

/-- Claim C2 scenario stream: a valid Binance message, then a Bitstamp message
that parses as JSON with a non-empty `data` object but whose
`get_updates_bitstamp` fails, then another valid Binance message. -/
def msgsC2 : List TaggedMsg :=
  [.binance (.ok [⟨.binance, .bid, 100, 2⟩]),
   .bitstamp (.error ()),
   .binance (.ok [⟨.binance, .bid, 101, 3⟩])]

/-- Session scenario book for claim C3. -/
def obC3 : Orderbook := Orderbook.default.reset "ethbtc" 4 0 0 0

/-- Session scenario book for claim C4. -/
def obC4 : Orderbook := Orderbook.default.reset "ethbtc" 2 0 0 0

/-- Claim C4 scenario stream: two valid Binance messages changing the
quantity at bid price 100 from 2 to 5. -/
def msgsC4 : List TaggedMsg :=
  [.binance (.ok [⟨.binance, .bid, 100, 2⟩]),
   .binance (.ok [⟨.binance, .bid, 100, 5⟩])]

/-- Session scenario book for claim C9. -/
def obC9 : Orderbook := Orderbook.default.reset "btcusdt" 3 0 0 0

/-- Reachable book with two exchanges quoting the same bid price, for
claim C7: reset, then Binance and Bitstamp each post a bid at 100. -/
def obC7 : Orderbook :=
  ((Orderbook.default.reset "ethbtc" 2 0 0 0).apply
      ⟨.binance, .bid, 100, 2⟩).apply ⟨.bitstamp, .bid, 100, 1⟩

/-- Reachable book used by the claim C7 witness: a bid and an ask on
distinct prices. -/
def obC7w : Orderbook :=
  ((Orderbook.default.reset "ethbtc" 2 0 0 0).apply
      ⟨.binance, .bid, 100, 2⟩).apply ⟨.binance, .ask, 101, 3⟩

/-- Claim C1 (code bug): the claim says concurrent sessions never share one
mutable `OrderBook`, but both handlers lock the server's single shared
`Arc<Mutex<Orderbook>>`: after session A (`get_summary` for `ethbtc`) the
shared cell holds A's book, and session B (`watch_summary` for `btcusdt`)
resets that same cell, destroying A's session state — the two sessions
operate on one shared mutable instance. -/
theorem c1_sessions_share_one_orderbook :
    (storeA OrderbookSummary.default.lockedRef).symbol = "ethbtc" ∧
    (storeB OrderbookSummary.default.lockedRef).symbol = "btcusdt" ∧
    OrderbookSummary.default.lockedRef = OrderbookSummary.default.orderbookRef :=
  ⟨rfl, rfl, rfl⟩

/-- Claim C5: a request whose symbol fails validation is rejected with a
validation error before any engine work, in both `get_summary` and
`watch_summary`: the orderbook is returned unchanged (no reset), and no
snapshot fetch or stream open is performed. -/
theorem c5_invalid_symbol_rejected_first (v : String → Bool)
    (snap : Except Unit (List LevelUpdate)) (so : Except Unit Unit)
    (ob : Orderbook) (req : SummaryRequest) (a : Nat)
    (h : v req.symbol = false) :
    get_summary v snap ob req = (.error .invalidArgument, ob, []) ∧
    watch_summary v snap so ob ⟨some a, req⟩ = (.err .invalidArgument, ob, []) := by
  constructor
  · simp [get_summary, h]
  · simp [watch_summary, h]

/-- Claim C5 witness: concrete rejected request. -/
theorem c5_invalid_symbol_rejected_first_witness :
    (fun _ : String => false) "nosuch" = false ∧
    get_summary (fun _ => false) (.ok []) Orderbook.default ⟨"nosuch", 1, 0, 0, 0⟩ =
      (.error .invalidArgument, Orderbook.default, []) ∧
    watch_summary (fun _ => false) (.ok []) (.ok ()) Orderbook.default
        ⟨some 3, ⟨"nosuch", 1, 0, 0, 0⟩⟩ =
      (.err .invalidArgument, Orderbook.default, []) := by
  have h := c5_invalid_symbol_rejected_first (fun _ => false) (.ok []) (.ok ())
    Orderbook.default ⟨"nosuch", 1, 0, 0, 0⟩ 3 rfl
  exact ⟨rfl, h.1, h.2⟩

/-- Claim C6: once the client's output channel is closed, any single
`select!` iteration terminates the session task: every enabled branch outcome
is `return Ok(())` (the closed branch) or `return Err(..)` (a message branch,
whose trailing send fails on the closed channel) — the loop never continues,
so no apply/summary work happens beyond that one scheduling step. -/
theorem c6_closed_channel_terminates_task (b : SelectBranch)
    (next : Option TaggedMsg) (ob : Orderbook) (out : IterOut)
    (h : selectIter b true next ob = some out) :
    out = .taskOk ∨ ∃ ob2, out = .taskErr ob2 := by
  cases b with
  | closed =>
    simp [selectIter] at h
    exact Or.inl h.symm
  | message =>
    cases next with
    | none => simp [selectIter] at h
    | some m =>
      simp only [selectIter, Option.some.injEq] at h
      right
      cases m with
      | err k => exact ⟨ob, h.symm⟩
      | noParse k => exact ⟨ob, by simp [watchStep, sendSummary] at h; exact h.symm⟩
      | binance r =>
        cases r with
        | error e => exact ⟨ob, by simp [watchStep, sendSummary] at h; exact h.symm⟩
        | ok us => exact ⟨ob.update us, by simp [watchStep, sendSummary] at h; exact h.symm⟩
      | bitstampEmpty => exact ⟨ob, by simp [watchStep, sendSummary] at h; exact h.symm⟩
      | bitstamp r =>
        cases r with
        | error e => exact ⟨ob, h.symm⟩
        | ok us => exact ⟨ob.update us, by simp [watchStep, sendSummary] at h; exact h.symm⟩

/-- Claim C6 witness: with the channel closed, the closed branch is enabled
and its outcome is a termination. -/
theorem c6_closed_channel_terminates_task_witness :
    selectIter .closed true none Orderbook.default = some .taskOk ∧
    (IterOut.taskOk = .taskOk ∨ ∃ ob2, IterOut.taskOk = .taskErr ob2) :=
  ⟨rfl, c6_closed_channel_terminates_task .closed none Orderbook.default .taskOk rfl⟩

/-- Claim C8: a gRPC request with no remote peer address makes `get_symbols`
and `watch_summary` panic on `request.remote_addr().unwrap()` before any
other work (no effects, book untouched); this is exactly the statement that a
present remote address is a precondition for these handlers not to panic. -/
theorem c8_missing_remote_addr_panics (sres : Except Unit (List String))
    (v : String → Bool) (snap : Except Unit (List LevelUpdate))
    (so : Except Unit Unit) (ob : Orderbook) (r : SummaryRequest) :
    get_symbols sres ⟨none, ()⟩ = .panicked ∧
    watch_summary v snap so ob ⟨none, r⟩ = (.panicked, ob, []) :=
  ⟨rfl, rfl⟩

/-- Claim C10: summaries are emitted only in reaction to stream messages:
over any finite stream prefix the session pushes at most one item per
message, and in particular, on an empty prefix (a quiet symbol, no delta yet)
the client receives nothing — the post-snapshot summary is never emitted on
its own. -/
theorem c10_no_emission_without_message (ob : Orderbook)
    (msgs : List TaggedMsg) :
    (runSession ob []).sent = [] ∧
    (runSession ob msgs).sent.length ≤ msgs.length := by
  refine ⟨rfl, ?_⟩
  induction msgs generalizing ob with
  | nil => simp [runSession]
  | cons m rest ih =>
    simp only [runSession]
    cases hw : watchStep true ob m with
    | next ob2 s => simpa using ih ob2
    | taskErr ob2 => simp
    | taskOk => simp

/-- Claim C2 counterexample: in a stream `[valid Binance, malformed Bitstamp,
valid Binance]` — the middle message parses as JSON with a non-empty `data`
object but its update extraction fails — the session task terminates with an
error on the middle message: only the first valid message's update is applied,
the third is never processed.  This refutes the claim that a malformed
message on either exchange is skipped with the session continuing. -/
theorem c2_malformed_bitstamp_kills_session :
    (runSession obC2 msgsC2).outcome = .errored ∧
    (runSession obC2 msgsC2).sent.length = 1 ∧
    (runSession obC2 msgsC2).ob = obC2.update [⟨.binance, .bid, 100, 2⟩] :=
  ⟨rfl, rfl, rfl⟩

/-- Claim C2 (amended): a message that fails JSON parsing (on either
exchange) is isolated — it is skipped, an unchanged summary is emitted, and
the session continues: in a stream of one unparseable message between two
valid ones, exactly the two valid messages' updates are applied and the task
stays alive.  (Bitstamp messages whose update extraction fails, and transport
errors, instead terminate the task — see the counterexample.) -/
theorem c2_unparseable_message_isolated (ob : Orderbook) (k : ExchangeType)
    (us1 us2 : List LevelUpdate) :
    runSession ob [.binance (.ok us1), .noParse k, .binance (.ok us2)] =
      ⟨[.ok (ob.update us1).get_summary,
        .ok (ob.update us1).get_summary,
        .ok ((ob.update us1).update us2).get_summary],
       (ob.update us1).update us2, .blocked⟩ := rfl

/-- Claim C3 counterexample: with the multiplexed sequence ended and the
client still connected, neither `select!` branch is enabled — the message
branch's pattern `Some((key, msg))` fails on `None` and `tx.closed()` is
pending — so the task blocks forever having delivered nothing: no final
error reaches the client and the task is still alive. -/
theorem c3_stream_end_delivers_no_error :
    selectIter .message false none obC3 = none ∧
    selectIter .closed false none obC3 = none ∧
    (runSession obC3 []).sent = [] ∧
    (runSession obC3 []).outcome = .blocked :=
  ⟨rfl, rfl, rfl, rfl⟩

/-- Claim C3 (amended): when the multiplexed sequence ends, the session does
NOT report an error: no `select!` branch is enabled while the client stays
connected, so the task stalls silently; moreover every item a session ever
pushes to the client's channel is an `Ok` summary — an explicit error item is
never delivered (a transport error makes the task return `Err` internally,
which merely drops the sender and closes the client stream without a final
error item). -/
theorem c3_stream_end_blocks_silently (b : SelectBranch) (ob : Orderbook)
    (msgs : List TaggedMsg) (x : ChannelItem)
    (hx : x ∈ (runSession ob msgs).sent) :
    selectIter b false none ob = none ∧ ∃ s, x = .ok s := by
  constructor
  · cases b <;> rfl
  · induction msgs generalizing ob with
    | nil => simp [runSession] at hx
    | cons m rest ih =>
      simp only [runSession] at hx
      cases hw : watchStep true ob m with
      | next ob2 s =>
        rw [hw] at hx
        simp only [List.mem_cons] at hx
        cases hx with
        | inl h => exact ⟨s, h⟩
        | inr h => exact ih ob2 h
      | taskErr ob2 => rw [hw] at hx; simp at hx
      | taskOk => rw [hw] at hx; simp at hx

/-- Claim C3 witness: a concrete sent item is an `Ok` summary, and the
message branch is disabled on an ended stream. -/
theorem c3_stream_end_blocks_silently_witness :
    selectIter .message false none Orderbook.default = none ∧
    ∃ s, ChannelItem.ok Orderbook.default.get_summary = .ok s :=
  c3_stream_end_blocks_silently .message Orderbook.default [.noParse .binance]
    (.ok Orderbook.default.get_summary) (List.Mem.head _)

/-- Claim C4 counterexample: with the client connected but not consuming, two
processed messages leave BOTH computed summaries in the unbounded channel in
arrival order; the older undelivered summary (quantity 2 at bid 100) is not
superseded by the newer one (quantity 5) — the backlog is an append-only
queue. -/
theorem c4_older_summary_not_superseded :
    (runSession obC4 msgsC4).sent =
      [.ok (obC4.update [⟨.binance, .bid, 100, 2⟩]).get_summary,
       .ok ((obC4.update [⟨.binance, .bid, 100, 2⟩]).update
              [⟨.binance, .bid, 100, 5⟩]).get_summary] ∧
    decide ((obC4.update [⟨.binance, .bid, 100, 2⟩]).get_summary =
      ((obC4.update [⟨.binance, .bid, 100, 2⟩]).update
         [⟨.binance, .bid, 100, 5⟩]).get_summary) = false :=
  ⟨rfl, by decide⟩

/-- Claim C4 (amended): every summary the session computes is appended to the
per-session unbounded channel and retained until consumed: over any stream
prefix of non-fatal messages the backlog grows by exactly one item per
message — nothing is superseded or dropped. -/
theorem c4_backlog_grows_per_message (ob : Orderbook) (msgs : List TaggedMsg)
    (h : ∀ m ∈ msgs, msgFatal m = false) :
    (runSession ob msgs).sent.length = msgs.length := by
  induction msgs generalizing ob with
  | nil => rfl
  | cons m rest ih =>
    have hm : msgFatal m = false := h m (List.mem_cons_self m rest)
    have hrest : ∀ m2 ∈ rest, msgFatal m2 = false :=
      fun m2 h2 => h m2 (List.mem_cons_of_mem m h2)
    simp only [runSession]
    cases m with
    | err k => simp [msgFatal] at hm
    | noParse k =>
      simp only [watchStep, sendSummary, if_pos rfl]
      simpa using ih ob hrest
    | binance r =>
      cases r with
      | error e =>
        simp only [watchStep, sendSummary, if_pos rfl]
        simpa using ih ob hrest
      | ok us =>
        simp only [watchStep, sendSummary, if_pos rfl]
        simpa using ih (ob.update us) hrest
    | bitstampEmpty =>
      simp only [watchStep, sendSummary, if_pos rfl]
      simpa using ih ob hrest
    | bitstamp r =>
      cases r with
      | error e => simp [msgFatal] at hm
      | ok us =>
        simp only [watchStep, sendSummary, if_pos rfl]
        simpa using ih (ob.update us) hrest

/-- Claim C4 witness: a concrete non-fatal two-message stream yields a
backlog of exactly two items. -/
theorem c4_backlog_grows_per_message_witness :
    (∀ m ∈ [TaggedMsg.bitstampEmpty, TaggedMsg.noParse .binance],
      msgFatal m = false) ∧
    (runSession Orderbook.default
      [TaggedMsg.bitstampEmpty, TaggedMsg.noParse .binance]).sent.length =
      [TaggedMsg.bitstampEmpty, TaggedMsg.noParse .binance].length :=
  ⟨by
      intro m hm
      rcases List.mem_cons.mp hm with h | hm2
      · subst h; rfl
      · rcases List.mem_cons.mp hm2 with h | hm3
        · subst h; rfl
        · simp at hm3,
   c4_backlog_grows_per_message Orderbook.default
     [TaggedMsg.bitstampEmpty, TaggedMsg.noParse .binance]
     (by
       intro m hm
       rcases List.mem_cons.mp hm with h | hm2
       · subst h; rfl
       · rcases List.mem_cons.mp hm2 with h | hm3
         · subst h; rfl
         · simp at hm3)⟩

/-- Claim C9 counterexample: a Bitstamp message whose update extraction fails
is received from the stream but triggers NO summary emission — the task
terminates via `?` before the send.  This refutes the claim that every
received message triggers exactly one emission. -/
theorem c9_fatal_message_emits_nothing :
    runSession obC9 [.bitstamp (.error ())] = ⟨[], obC9, .errored⟩ := rfl

/-- Claim C9 (amended): every message that does not terminate the task
(i.e. neither a transport error nor a failing Bitstamp update extraction)
triggers exactly one summary emission, whether or not any updates were
applied: JSON-parse failures, Binance extraction failures and Bitstamp
messages with missing/empty `data` all emit one (unchanged) summary; fatal
messages terminate the task with no emission. -/
theorem c9_one_emission_per_surviving_message (ob : Orderbook)
    (m : TaggedMsg) (k : ExchangeType) (e : Unit) :
    (msgFatal m = false →
      runSession ob [m] =
        ⟨[.ok ((ob.update (msgUpdates m)).get_summary)],
         ob.update (msgUpdates m), .blocked⟩) ∧
    (msgFatal m = true → runSession ob [m] = ⟨[], ob, .errored⟩) ∧
    msgUpdates (.noParse k) = [] ∧
    msgUpdates (.binance (.error e)) = [] ∧
    msgUpdates .bitstampEmpty = [] := by
  refine ⟨?_, ?_, rfl, rfl, rfl⟩ <;>
    · intro h
      cases m with
      | err k2 => simp_all [msgFatal, runSession, watchStep]
      | noParse k2 => simp_all [msgFatal, runSession, watchStep, sendSummary,
          msgUpdates, Orderbook.update]
      | binance r =>
        cases r <;> simp_all [msgFatal, runSession, watchStep, sendSummary,
          msgUpdates, Orderbook.update]
      | bitstampEmpty => simp_all [msgFatal, runSession, watchStep, sendSummary,
          msgUpdates, Orderbook.update]
      | bitstamp r =>
        cases r <;> simp_all [msgFatal, runSession, watchStep, sendSummary,
          msgUpdates, Orderbook.update]

/-- Claim C9 witness: a concrete JSON-unparseable message still triggers
exactly one (unchanged) summary emission. -/
theorem c9_one_emission_per_surviving_message_witness :
    msgFatal (.noParse .binance) = false ∧
    runSession Orderbook.default [.noParse .binance] =
      ⟨[.ok ((Orderbook.default.update
          (msgUpdates (.noParse .binance))).get_summary)],
       Orderbook.default.update (msgUpdates (.noParse .binance)), .blocked⟩ :=
  ⟨rfl,
   (c9_one_emission_per_surviving_message Orderbook.default
      (.noParse .binance) .binance ()).1 rfl⟩

/-- Keys of a ladder after applying an update: each key either is the applied
price or was already present. -/
theorem ladderApply_mem_key (before : Price → Price → Bool) (e : ExchangeType)
    (p : Price) (q : Qty) (l : Ladder) :
    ∀ x ∈ ladderApply before e p q l, x.1 = p ∨ x.1 ∈ l.map Prod.fst := by
  induction l with
  | nil =>
    intro x hx
    simp only [ladderApply] at hx
    split at hx
    · simp at hx
    · simp only [List.mem_singleton] at hx
      subst hx
      exact Or.inl rfl
  | cons hd rest ih =>
    obtain ⟨p0, pl0⟩ := hd
    intro x hx
    simp only [ladderApply] at hx
    split at hx
    case isTrue hpp0 =>
      split at hx
      · exact Or.inr (by simp [List.mem_cons.mpr (Or.inr (List.mem_map_of_mem Prod.fst hx))])
      · rcases List.mem_cons.mp hx with rfl | hx2
        · exact Or.inl hpp0.symm
        · exact Or.inr (by simp [List.mem_map_of_mem Prod.fst hx2])
    case isFalse hpp0 =>
      split at hx
      case isTrue hbef =>
        split at hx
        · rcases List.mem_cons.mp hx with rfl | hx2
          · exact Or.inr (by simp)
          · exact Or.inr (by simp [List.mem_map_of_mem Prod.fst hx2])
        · rcases List.mem_cons.mp hx with rfl | hx2
          · exact Or.inl rfl
          · rcases List.mem_cons.mp hx2 with rfl | hx3
            · exact Or.inr (by simp)
            · exact Or.inr (by simp [List.mem_map_of_mem Prod.fst hx3])
      case isFalse hnbef =>
        rcases List.mem_cons.mp hx with rfl | hx2
        · exact Or.inr (by simp)
        · rcases ih x hx2 with hk | hk
          · exact Or.inl hk
          · exact Or.inr (by simp [hk])

/-- Applying an update to a ladder sorted by a strict total order `before`
keeps it sorted. -/
theorem ladderApply_pairwise (before : Price → Price → Bool)
    (htrans : ∀ a b c : Price,
      before a b = true → before b c = true → before a c = true)
    (hconn : ∀ a b : Price, ¬a = b → ¬before a b = true → before b a = true)
    (e : ExchangeType) (p : Price) (q : Qty) (l : Ladder)
    (h : l.Pairwise fun x y => before x.1 y.1 = true) :
    (ladderApply before e p q l).Pairwise fun x y => before x.1 y.1 = true := by
  induction l with
  | nil =>
    simp only [ladderApply]
    split
    · exact List.Pairwise.nil
    · exact List.pairwise_singleton _ _
  | cons hd rest ih =>
    obtain ⟨p0, pl0⟩ := hd
    rw [List.pairwise_cons] at h
    obtain ⟨h0, h1⟩ := h
    simp only [ladderApply]
    split
    case isTrue hpp0 =>
      split
      · exact h1
      · exact List.pairwise_cons.mpr ⟨h0, h1⟩
    case isFalse hpp0 =>
      split
      case isTrue hbef =>
        split
        · exact List.pairwise_cons.mpr ⟨h0, h1⟩
        · refine List.pairwise_cons.mpr ⟨?_, List.pairwise_cons.mpr ⟨h0, h1⟩⟩
          intro y hy
          rcases List.mem_cons.mp hy with rfl | hy2
          · exact hbef
          · exact htrans p p0 y.1 hbef (h0 y hy2)
      case isFalse hnbef =>
        refine List.pairwise_cons.mpr ⟨?_, ih h1⟩
        intro y hy
        rcases ladderApply_mem_key before e p q rest y hy with hk | hk
        · rw [hk]
          exact hconn p p0 hpp0 hnbef
        · obtain ⟨z, hz, hzk⟩ := List.mem_map.mp hk
          rw [← hzk]
          exact h0 z hz

/-- Every summary entry a price level contributes carries that level's price. -/
theorem entries_price (p : Price) (pl : PriceLevel) :
    ∀ x ∈ PriceLevel.entries p pl, x.price = p := by
  obtain ⟨b, t⟩ := pl
  intro x hx
  cases b <;> cases t <;> simp [PriceLevel.entries] at hx
  case none.some q => subst hx; rfl
  case some.none q => subst hx; rfl
  case some.some q1 q2 => rcases hx with hx | hx <;> (subst hx; rfl)

/-- Every flattened summary entry's price is a key of the ladder. -/
theorem ladderEntries_exists_key (l : Ladder) :
    ∀ x ∈ ladderEntries l, ∃ y ∈ l, x.price = y.1 := by
  induction l with
  | nil => intro x hx; simp [ladderEntries] at hx
  | cons hd rest ih =>
    obtain ⟨p0, pl0⟩ := hd
    intro x hx
    simp only [ladderEntries] at hx
    rcases List.mem_append.mp hx with h | h
    · exact ⟨(p0, pl0), List.mem_cons_self _ _, entries_price p0 pl0 x h⟩
    · obtain ⟨y, hy, hk⟩ := ih x h
      exact ⟨y, List.mem_cons_of_mem _ hy, hk⟩

/-- Flattening a strictly sorted ladder yields entries weakly sorted by
price: entries of the same rung share a price, entries of distinct rungs
inherit the ladder's strict order. -/
theorem ladderEntries_pairwise (before : Price → Price → Bool) (l : Ladder)
    (h : l.Pairwise fun x y => before x.1 y.1 = true) :
    (ladderEntries l).Pairwise
      fun a b => before a.price b.price = true ∨ a.price = b.price := by
  induction l with
  | nil => exact List.Pairwise.nil
  | cons hd rest ih =>
    obtain ⟨p0, pl0⟩ := hd
    rw [List.pairwise_cons] at h
    obtain ⟨h0, h1⟩ := h
    simp only [ladderEntries]
    rw [List.pairwise_append]
    refine ⟨?_, ih h1, ?_⟩
    · apply List.pairwise_of_forall_mem_list
      intro a ha b hb
      exact Or.inr (by rw [entries_price p0 pl0 a ha, entries_price p0 pl0 b hb])
    · intro a ha b hb
      obtain ⟨y, hy, hk⟩ := ladderEntries_exists_key rest b hb
      exact Or.inl (by rw [entries_price p0 pl0 a ha, hk]; exact h0 y hy)

/-- The bid order (descending price) is transitive. -/
theorem bidBefore_trans (a b c : Price) (h1 : bidBefore a b = true)
    (h2 : bidBefore b c = true) : bidBefore a c = true := by
  simp only [bidBefore, decide_eq_true_eq] at h1 h2 ⊢
  exact Nat.lt_trans h2 h1

/-- The bid order is connected: distinct prices compare one way or the other. -/
theorem bidBefore_conn (a b : Price) (h1 : ¬a = b) (h2 : ¬bidBefore a b = true) :
    bidBefore b a = true := by
  simp only [bidBefore, decide_eq_true_eq] at h2 ⊢
  exact Nat.lt_of_le_of_ne (Nat.not_lt.mp h2) h1

/-- The ask order (ascending price) is transitive. -/
theorem askBefore_trans (a b c : Price) (h1 : askBefore a b = true)
    (h2 : askBefore b c = true) : askBefore a c = true := by
  simp only [askBefore, decide_eq_true_eq] at h1 h2 ⊢
  exact Nat.lt_trans h1 h2

/-- The ask order is connected. -/
theorem askBefore_conn (a b : Price) (h1 : ¬a = b) (h2 : ¬askBefore a b = true) :
    askBefore b a = true := by
  simp only [askBefore, decide_eq_true_eq] at h2 ⊢
  exact Nat.lt_of_le_of_ne (Nat.not_lt.mp h2) (Ne.symm h1)

/-- Every reachable orderbook has both ladders sorted by their side's strict
order. -/
theorem reachable_wf (ob : Orderbook) (h : Reachable ob) : ob.WF := by
  induction h with
  | reset ob2 sym l mn mx d => exact ⟨List.Pairwise.nil, List.Pairwise.nil⟩
  | apply u hr ih =>
    obtain ⟨hb, ha⟩ := ih
    obtain ⟨e, side, p, q⟩ := u
    cases side with
    | bid =>
      exact ⟨ladderApply_pairwise bidBefore bidBefore_trans bidBefore_conn
          e p q _ hb, ha⟩
    | ask =>
      exact ⟨hb, ladderApply_pairwise askBefore askBefore_trans askBefore_conn
          e p q _ ha⟩

/-- Claim C7 counterexample: `obC7` is reachable (reset, then Binance and
Bitstamp each post a bid at price 100, depth 2) and its summary's bid list
holds two entries with EQUAL price — so the bid list is not sorted strictly
descending by price, refuting the strict-ordering half of the claim. -/
theorem c7_equal_prices_not_strictly_sorted :
    Reachable obC7 ∧
    obC7.get_summary.bids = [⟨.binance, 100, 2⟩, ⟨.bitstamp, 100, 1⟩] ∧
    decide (obC7.get_summary.bids.Pairwise fun a b => b.price < a.price) = false :=
  ⟨Reachable.apply _ (Reachable.apply _
      (Reachable.reset Orderbook.default "ethbtc" 2 0 0 0)),
   rfl, by decide⟩

/-- Claim C7 (amended): for every reachable orderbook state the summary
satisfies the depth invariant (`bids`/`asks` each at most `levels` entries)
and the ordering invariant weakened at exchange ties: `bids` is sorted
descending by price and `asks` ascending, strictly across distinct prices but
with equal prices (two exchanges quoting the same price) adjacent. -/
theorem c7_summary_depth_and_weak_ordering (ob : Orderbook)
    (h : Reachable ob) :
    ob.get_summary.bids.length ≤ ob.levels ∧
    ob.get_summary.asks.length ≤ ob.levels ∧
    ob.get_summary.bids.Pairwise (fun a b => b.price ≤ a.price) ∧
    ob.get_summary.asks.Pairwise (fun a b => a.price ≤ b.price) := by
  obtain ⟨hb, ha⟩ := reachable_wf ob h
  refine ⟨List.length_take_le _ _, List.length_take_le _ _, ?_, ?_⟩
  · refine ((ladderEntries_pairwise bidBefore ob.bids hb).sublist
      (List.take_sublist _ _)).imp ?_
    intro a b hab
    rcases hab with hlt | heq
    · simp only [bidBefore, decide_eq_true_eq] at hlt
      exact Nat.le_of_lt hlt
    · exact Nat.le_of_eq heq.symm
  · refine ((ladderEntries_pairwise askBefore ob.asks ha).sublist
      (List.take_sublist _ _)).imp ?_
    intro a b hab
    rcases hab with hlt | heq
    · simp only [askBefore, decide_eq_true_eq] at hlt
      exact Nat.le_of_lt hlt
    · exact Nat.le_of_eq heq

/-- Claim C7 witness: a concrete reachable book (a bid at 100 and an ask at
101) satisfies the depth and weak-ordering invariants. -/
theorem c7_summary_depth_and_weak_ordering_witness :
    obC7w.get_summary.bids.length ≤ obC7w.levels ∧
    obC7w.get_summary.asks.length ≤ obC7w.levels ∧
    obC7w.get_summary.bids.Pairwise (fun a b => b.price ≤ a.price) ∧
    obC7w.get_summary.asks.Pairwise (fun a b => a.price ≤ b.price) :=
  c7_summary_depth_and_weak_ordering obC7w
    (Reachable.apply _ (Reachable.apply _
      (Reachable.reset Orderbook.default "ethbtc" 2 0 0 0)))
